import Mathlib

/-!
# Verification of the MCP chat client connection/target-management core

Shallow embedding of `src/scripts/mcp-client.js` (the module exporting
`McpChatClient`, `connectWithFallback`, `buildTransportAttempts`,
`pickPrimaryArgument`, `formatResultContent`, `ChatTargetManager`).

Modelling conventions:
* JavaScript argument objects are association lists `List (String × JsVal)`;
  object-literal keys are unique, spreads (`{...a, ...b}`) are modelled by
  folding a key-replacing insert, and property reads by first-match lookup.
* JS truthiness is made explicit (`jsTruthy`, `jsTruthyStr`).
* The RPC collaborator (transport construction, `client.connect`,
  `listTools`) is a parameter: each transport attempt is paired with an
  `AttemptBehavior` saying whether its zero-argument factory throws and
  whether the subsequent `connect` call fails, and the server's advertised
  tool list is passed in as data.
* Errors are their human-readable messages (`Err := String`), matching the
  source where every raised error is `new Error(message)`.
* Async suspension/interleaving is only observable in `connect()`'s
  single-flight logic; that is modelled separately by a small operational
  model (`ConnState`) whose atomic steps are the run-to-completion
  segments of the event loop.
-/

set_option autoImplicit false

namespace MCP

/-- Error values carry the `new Error(message)` message text. -/
abbrev Err := String

/-! ### JS string operations

The JS string methods the client uses (`trim`, `toLowerCase`, the
`/\/sse\/?$/i` suffix strip) are modelled over the character list of the
Lean string, so that every definition evaluates by kernel reduction. -/

/-- JS `String.prototype.trim()`: strip leading and trailing whitespace. -/
def jsTrim (s : String) : String :=
  ⟨(((s.data.dropWhile Char.isWhitespace).reverse.dropWhile Char.isWhitespace).reverse)⟩

/-- JS `String.prototype.toLowerCase()` (ASCII case folding suffices for
the transport-preference values compared against `'sse'`/`'streamable'`). -/
def jsToLowerCase (s : String) : String :=
  ⟨s.data.map Char.toLower⟩

/-- Does `s` end with `suffix` (used for the `/\/sse\/?$/i` test after
lowercasing)? -/
def jsEndsWith (s suffix : String) : Bool :=
  suffix.data.isSuffixOf s.data

/-- Drop the last `n` characters of `s`. -/
def jsDropRight (s : String) (n : Nat) : String :=
  ⟨s.data.take (s.data.length - n)⟩

/-- A JavaScript primitive value as it can appear in tool-call arguments
(static args come from parsed JSON, overrides from callers). -/
inductive JsVal where
  | str (s : String)
  | num (n : Int)
  | bool (b : Bool)
  | null
  deriving DecidableEq, Repr

/-- JS truthiness of a present value. -/
def jsTruthy : JsVal → Bool
  | .str s => s ≠ ""
  | .num n => n ≠ 0
  | .bool b => b
  | .null => false

/-- JS truthiness of a possibly-absent value (`undefined` is falsy). -/
def jsTruthyOpt : Option JsVal → Bool
  | some v => jsTruthy v
  | none => false

/-- JS truthiness of a `String | null | undefined` field. -/
def jsTruthyStr : Option String → Bool
  | some s => s ≠ ""
  | none => false

/-- A JS argument object: association list from property name to value. -/
abbrev Args := List (String × JsVal)

/-- Property read `args[k]` (first match; object keys are unique). -/
def getArg : Args → String → Option JsVal
  | [], _ => none
  | p :: ps, k => if p.1 = k then some p.2 else getArg ps k

/-- Property test `k in args` — the object has a property named `k`. -/
def hasArg (args : Args) (k : String) : Bool :=
  (getArg args k).isSome

/-- Property write `args[k] = v`: replaces the binding of `k` in place if
one exists, else appends it (JS property assignment order semantics). -/
def insertArg : Args → String → JsVal → Args
  | [], k, v => [(k, v)]
  | p :: ps, k, v => if p.1 = k then (k, v) :: ps else p :: insertArg ps k v

/-- Object spread `{...base, ...overrides}`: later keys win. -/
def mergeArgs (base overrides : Args) : Args :=
  overrides.foldl (fun acc kv => insertArg acc kv.1 kv.2) base

/-! ## Tool input schemas and `pickPrimaryArgument` (source lines 447-468) -/

/-- One property of a JSON-schema `properties` object.  A property value in
a tool input schema is itself a schema object (hence always JS-truthy when
present); the only field the client inspects is its `type`. -/
structure SchemaProp where
  type : Option String
  deriving DecidableEq, Repr

/-- A tool input schema: a `type` tag and an optional `properties` object,
modelled as an association list from property name to property schema. -/
structure InputSchema where
  type : String
  properties : Option (List (String × SchemaProp))
  deriving DecidableEq, Repr

/-- Property read `props[k]` on the properties object. -/
def lookupProp : List (String × SchemaProp) → String → Option SchemaProp
  | [], _ => none
  | p :: ps, k => if p.1 = k then some p.2 else lookupProp ps k

/-- Source function `pickPrimaryArgument(schema)` (lines 447-468).
`if (!schema || schema.type !== 'object') return null;` then duck-typed
probing of `schema.properties ?? {}`: `props.query` / `props.question`
truthiness (property values are schema objects, hence truthy iff present),
`Object.keys(props)` singleton, else the unique `type === 'string'` key. -/
def pickPrimaryArgument (schema : Option InputSchema) : Option String :=
  match schema with
  | none => none
  | some sch =>
    if sch.type ≠ "object" then none
    else
      let props := sch.properties.getD []
      if (lookupProp props "query").isSome then some "query"
      else if (lookupProp props "question").isSome then some "question"
      else
        let entries := props.map (·.1)
        if entries.length = 1 then entries.head?
        else
          let stringOnly := entries.filter
            (fun key => ((lookupProp props key).bind SchemaProp.type) == some "string")
          if stringOnly.length = 1 then stringOnly.head? else none

/-- The primary-argument inference rule as worded by the spec (§4.2): over
the structural property map, prefer a property literally named `query`;
else `question`; else, if there is exactly one property, that property;
else, if exactly one property has string type, that one; else no
inference. Written from the spec's words, to be compared with
`pickPrimaryArgument`. -/
def specInferPrimary (props : List (String × SchemaProp)) : Option String :=
  let names := props.map (·.1)
  if names.contains "query" then some "query"
  else if names.contains "question" then some "question"
  else if names.length = 1 then names.head?
  else
    let stringTyped := names.filter
      (fun key => ((lookupProp props key).bind SchemaProp.type) == some "string")
    if stringTyped.length = 1 then stringTyped.head? else none

/-- The assignment `this.primaryArgKey = pickPrimaryArgument(...) ?? this.primaryArgKey`
performed at connect time (source line 340). -/
def inferredPrimaryKey (schema : Option InputSchema) (prior : String) : String :=
  (pickPrimaryArgument schema).getD prior

/-! ## Transport attempts: `buildTransportAttempts` (source lines 419-445) -/

/-- Which of the two wire transports an attempt would construct. -/
inductive TransportKind where
  | streamableHttp
  | sse
  deriving DecidableEq, Repr

/-- What an attempt's zero-argument factory would build: a fresh,
unconnected transport handle bound to its URL (the auth `headers` /
`requestInit` captured by the closure are opaque collaborator
configuration and are not inspected by any claim). -/
structure TransportSpec where
  kind : TransportKind
  url : String
  deriving DecidableEq, Repr

/-- One entry of the ordered attempt list: `{label, create}`. -/
structure Attempt where
  label : String
  create : TransportSpec
  deriving DecidableEq, Repr

/-- Source function `buildTransportAttempts` (lines 419-445): normalize the
preference (`['sse', 'streamable'].includes(p) ? p : 'auto'`), then push
the streamable-HTTP attempt for `streamable`/`auto` and the SSE attempt
for `sse`/`auto`, in that order. -/
def buildTransportAttempts (transportPreference sseUrl streamableUrl : String) : List Attempt :=
  let normalizedPreference :=
    if ["sse", "streamable"].contains transportPreference then transportPreference else "auto"
  let attempts : List Attempt := []
  let attempts :=
    if normalizedPreference = "streamable" ∨ normalizedPreference = "auto" then
      attempts ++ [⟨"streamable-http @ " ++ streamableUrl, ⟨.streamableHttp, streamableUrl⟩⟩]
    else attempts
  let attempts :=
    if normalizedPreference = "sse" ∨ normalizedPreference = "auto" then
      attempts ++ [⟨"sse @ " ++ sseUrl, ⟨.sse, sseUrl⟩⟩]
    else attempts
  attempts

/-! ## `connectWithFallback` (source lines 391-417)

The loop body constructs a fresh RPC `Client`, invokes the attempt's
factory (NOTE: *outside* the `try` block), and `await`s
`candidateClient.connect(candidateTransport)` inside the `try`.  On a
connect failure it records the error, logs a warning, best-effort-closes
the candidate client and transport, and continues; on success it returns
the connected handles and the attempt's label.  After the loop it throws
`lastError ?? new Error('All transports failed to connect.')`.

The collaborator is abstracted by `AttemptBehavior`: whether the factory
throws, and whether the `connect` call fails. -/

/-- World response to one attempt: does `attempt.create()` throw, and does
`candidateClient.connect(...)` fail. -/
structure AttemptBehavior where
  createErr : Option Err
  connectErr : Option Err
  deriving DecidableEq, Repr

/-- Observable side effects of the fallback loop: `console.warn` lines and
the labels of attempts whose candidate client/transport had their `close`
methods invoked (teardown errors are swallowed by `.catch(() => {})`). -/
structure FallbackTrace where
  warnings : List String
  closed : List String
  deriving DecidableEq, Repr

/-- Result of `connectWithFallback`: the connected transport and label, or
the thrown error. -/
inductive FallbackResult where
  | ok (transport : TransportSpec) (label : String)
  | err (e : Err)
  deriving DecidableEq, Repr

def allTransportsFailedMsg : Err := "All transports failed to connect."

def noTransportAttemptsMsg : Err :=
  "No transport attempts configured. Set MCP_TRANSPORT to \"sse\" or \"streamable\"."

/-- Warning text logged by `console.warn` for a failed attempt (source line 410). -/
def warnMsg (label : String) (e : Err) : String :=
  "Transport \"" ++ label ++ "\" failed: " ++ e

/-- The `for (const attempt of attempts)` loop of `connectWithFallback`
(source lines 397-416), with each attempt paired with the world's
response.  A factory throw (`attempt.create()` is outside the `try`)
propagates immediately: no warning, no teardown, no further attempts.
A connect failure logs a warning, closes the candidates, and continues
with the error recorded as `lastError`. -/
def runFallback : List (Attempt × AttemptBehavior) → Option Err → FallbackResult × FallbackTrace
  | [], lastError => (.err (lastError.getD allTransportsFailedMsg), ⟨[], []⟩)
  | (attempt, behavior) :: rest, _lastError =>
    match behavior.createErr with
    | some e => (.err e, ⟨[], []⟩)
    | none =>
      match behavior.connectErr with
      | none => (.ok attempt.create attempt.label, ⟨[], []⟩)
      | some e =>
        let (result, trace) := runFallback rest (some e)
        (result, ⟨warnMsg attempt.label e :: trace.warnings, attempt.label :: trace.closed⟩)

/-- Source function `connectWithFallback` (lines 391-417): the empty-attempts guard,
then the loop. -/
def connectWithFallback (paired : List (Attempt × AttemptBehavior)) :
    FallbackResult × FallbackTrace :=
  if paired.isEmpty then (.err noTransportAttemptsMsg, ⟨[], []⟩)
  else runFallback paired none

/-! ## `McpChatClient` state and constructor (source lines 262-285) -/

/-- A tool descriptor as advertised by `listTools()`: the client inspects
only `name` and `inputSchema`. -/
structure Tool where
  name : String
  inputSchema : Option InputSchema
  deriving DecidableEq, Repr

/-- The mutable fields of an `McpChatClient` instance.  The live client
handle is opaque (`Option Unit`: set iff `this.client` is set); the
in-flight `connectPromise` marker is only observable under interleaving
and is modelled separately by `ConnState` below. -/
structure McpClientState where
  sseUrl : String
  streamableUrl : String
  apiKey : Option String
  toolName : String
  transportPreference : String
  staticArgs : Args
  productFilter : Option String
  client : Option Unit
  transport : Option TransportSpec
  connectionLabel : String
  primaryArgKey : String
  selectedTool : Option Tool
  deriving DecidableEq, Repr

/-- The constructor option bag (`options` parameter, source line 263). -/
structure ClientOptions where
  sseUrl : Option String := none
  streamableUrl : Option String := none
  apiKey : Option String := none
  toolName : Option String := none
  transportPreference : Option String := none
  staticArgs : Option Args := none
  product : Option String := none
  deriving DecidableEq, Repr

/-- The ambient `process.env` values the constructor reads.  JSON blobs
(`MCP_EXTRA_ARGS`) are modelled already parsed: `safeParseJson` yields the
parsed object or, on missing/malformed input, `null` with a logged
warning, so its observable result is an `Option Args`. -/
structure Env where
  mcpSseUrl : Option String := none
  mcpServerUrl : Option String := none
  mcpStreamableUrl : Option String := none
  mcpApiKey : Option String := none
  ciscoDocsApiKey : Option String := none
  xApiKey : Option String := none
  mcpToolName : Option String := none
  mcpTransport : Option String := none
  mcpExtraArgs : Option Args := none
  mcpProduct : Option String := none
  docsProduct : Option String := none
  deriving DecidableEq, Repr

def emptyEnv : Env := {}

def DEFAULT_SSE_URL : String := "https://docs-ai.cloudapps.cisco.com/mcp/sse"

def DEFAULT_TOOL_NAME : String := "ask_cisco_documentation"

/-- Source function `stripSseSuffix` (lines 482-487): remove a trailing `/sse` or
`/sse/` (case-insensitive, the regex `/\/sse\/?$/i`). -/
def stripSseSuffix (urlString : String) : String :=
  if urlString = "" then urlString
  else if jsEndsWith (jsToLowerCase urlString) "/sse/" then jsDropRight urlString 5
  else if jsEndsWith (jsToLowerCase urlString) "/sse" then jsDropRight urlString 4
  else urlString

/-- The `McpChatClient` constructor (source lines 263-285).  When
`options.useProcessEnv !== false` the ambient environment seeds unset
options, otherwise an empty environment is used.  The final
`?? 'https://docs-ai.cloudapps.cisco.com/mcp'` fallback for
`streamableUrl` is unreachable because `stripSseSuffix` of the (always
present) `sseUrl` is a string. -/
def mkClientState (options : ClientOptions) (useProcessEnv : Bool) (penv : Env) :
    McpClientState :=
  let env := if useProcessEnv then penv else emptyEnv
  let sseUrl := ((options.sseUrl <|> env.mcpSseUrl) <|> env.mcpServerUrl).getD DEFAULT_SSE_URL
  let streamableUrl :=
    (options.streamableUrl <|> env.mcpStreamableUrl).getD (stripSseSuffix sseUrl)
  let initialProduct := ((options.product <|> env.mcpProduct) <|> env.docsProduct).getD ""
  { sseUrl := sseUrl
    streamableUrl := streamableUrl
    apiKey := ((options.apiKey <|> env.mcpApiKey) <|> env.ciscoDocsApiKey) <|> env.xApiKey
    toolName := (options.toolName <|> env.mcpToolName).getD DEFAULT_TOOL_NAME
    transportPreference := jsToLowerCase ((options.transportPreference <|> env.mcpTransport).getD "auto")
    staticArgs := (options.staticArgs <|> env.mcpExtraArgs).getD []
    productFilter := if jsTrim initialProduct ≠ "" then some (jsTrim initialProduct) else none
    client := none
    transport := none
    connectionLabel := ""
    primaryArgKey := "query"
    selectedTool := none }

/-- Source method `isConnected()` (lines 287-289): `Boolean(this.client)`. -/
def isConnected (s : McpClientState) : Bool :=
  s.client.isSome

/-- Source method `setProductFilter(value)` (lines 295-298):
`value?.trim() ? value.trim() : null`. -/
def setProductFilter (s : McpClientState) (value : Option String) : McpClientState :=
  { s with productFilter :=
      if jsTrim (value.getD "") ≠ "" then some (jsTrim (value.getD "")) else none }

/-- Source method `getProductFilter()` (lines 291-293). -/
def getProductFilter (s : McpClientState) : Option String :=
  s.productFilter

/-- Source method `getConnectionLabel()` (lines 300-302). -/
def getConnectionLabel (s : McpClientState) : String :=
  s.connectionLabel

def missingApiKeyMsg : Err :=
  "Missing API key. Set MCP_API_KEY (or CISCO_DOCS_API_KEY) before using the chatbot."

def toolNotFoundMsg (toolName : String) : Err :=
  "Tool \"" ++ toolName ++ "\" is not exposed by the MCP server."

/-- Source method `#connectInternal()` (lines 314-344), with the collaborator
abstracted: `behave i` answers attempt number `i` of the fallback loop and
`tools` is the list returned by `listTools()` (whose own failure mode is
not exercised by any claim).  Returns the thrown error (if any), the
resulting field state, and the fallback loop's trace.  Mutations happen in
source order: the connected handles and label are assigned *before* the
tool lookup, and nothing clears them on the tool-not-found throw (the
`finally` only clears `connectPromise`, modelled in `ConnState`). -/
def connectInternal (s : McpClientState) (behave : Nat → AttemptBehavior)
    (tools : List Tool) : Option Err × McpClientState × FallbackTrace :=
  if jsTruthyStr s.apiKey = false then (some missingApiKeyMsg, s, ⟨[], []⟩)
  else
    let attempts := buildTransportAttempts s.transportPreference s.sseUrl s.streamableUrl
    let paired := attempts.enum.map (fun p => (p.2, behave p.1))
    match connectWithFallback paired with
    | (.err e, trace) => (some e, s, trace)
    | (.ok transport label, trace) =>
      let s := { s with client := some (), transport := some transport,
                        connectionLabel := label }
      match tools.find? (fun t => t.name == s.toolName) with
      | none => (some (toolNotFoundMsg s.toolName), s, trace)
      | some tool =>
        let s := { s with selectedTool := some tool,
                          primaryArgKey := inferredPrimaryKey tool.inputSchema s.primaryArgKey }
        (none, s, trace)

/-- Source method `connect()` (lines 304-312) as seen by a single caller with no
other call in flight: `if (this.client) return;` short-circuits,
otherwise the shared `#connectInternal` runs (the single-flight promise
sharing itself is modelled by `ConnState`). -/
def connectOnce (s : McpClientState) (behave : Nat → AttemptBehavior)
    (tools : List Tool) : Option Err × McpClientState × FallbackTrace :=
  if s.client.isSome then (none, s, ⟨[], []⟩)
  else connectInternal s behave tools

def emptyQuestionMsg : Err := "Question cannot be empty."

/-- The argument construction of `ask` (source lines 357-361):
`{...this.staticArgs, ...argOverrides}`, then
`args[this.primaryArgKey] = trimmed`, then
`if (this.productFilter && !args.product) args.product = this.productFilter`. -/
def buildAskArgs (s : McpClientState) (argOverrides : Args) (trimmed : String) : Args :=
  let args := mergeArgs s.staticArgs argOverrides
  let args := insertArg args s.primaryArgKey (.str trimmed)
  match s.productFilter with
  | some f =>
    if f ≠ "" ∧ jsTruthyOpt (getArg args "product") = false then
      insertArg args "product" (.str f)
    else args
  | none => args

/-- The pure prefix of `ask(question, argOverrides)` (source lines
346-361): the empty-question guard and the argument construction.  The
auto-connect and the `callTool` invocation are collaborator calls carrying
these arguments verbatim. -/
def askArgs (s : McpClientState) (question : String) (argOverrides : Args) :
    Except Err Args :=
  let trimmed := jsTrim question
  if trimmed = "" then .error emptyQuestionMsg
  else .ok (buildAskArgs s argOverrides trimmed)

/-- Source method `close()` (lines 369-388): best-effort `close` on the client
and transport handles with teardown errors swallowed (external effects),
then reset of `client`, `transport`, `selectedTool`, `connectionLabel`.
No other field is touched. -/
def closeClient (s : McpClientState) : McpClientState :=
  { s with client := none, transport := none, selectedTool := none, connectionLabel := "" }

/-! ## Single-flight `connect()` under interleaving (source lines 304-344)

The event loop runs each task to completion between `await`s, so the body
of `connect()` up to `await this.connectPromise` is atomic: it checks
`this.client`, lazily assigns `this.connectPromise = this.#connectInternal()`
and then suspends on the shared promise.  When the in-flight
`#connectInternal` settles, its `finally` has already cleared
`this.connectPromise`, on success `this.client` was assigned before the
return, and every caller awaiting that promise resumes with its single
outcome.  `ConnState` makes exactly these observables explicit; attempts
are numbered so "how many underlying attempt sequences ran" is countable. -/

def noTargetsMsg : Err := "At least one MCP target must be configured."

def unknownTargetMsg (name : String) : Err :=
  "Unknown target \"" ++ name ++ "\"."

/-- A normalized registry entry `{name, options, useProcessEnv}` (source
lines 518-522). -/
structure TargetDef where
  name : String
  options : ClientOptions
  useProcessEnv : Bool
  deriving DecidableEq, Repr

/-- A raw constructor entry, before the `?? {}` / `?? false` defaults. -/
structure RawTarget where
  name : String
  options : Option ClientOptions := none
  useProcessEnv : Option Bool := none
  deriving DecidableEq, Repr

/-- Fields of `ChatTargetManager`: the normalized target list, the
name-keyed client cache (`this.clients`, a `Map`), the per-client states
on a heap keyed by identity, the next fresh identity, and the default
target name. -/
structure ManagerState where
  targets : List TargetDef
  clients : List (String × Nat)
  clientStates : List (Nat × McpClientState)
  nextId : Nat
  defaultTargetName : String
  deriving DecidableEq, Repr

/-- The `ChatTargetManager` constructor (source lines 514-525): throws on
a missing/empty target list, normalizes each entry, starts with an empty
cache, and points the default at the first target's name. -/
def mkChatTargetManager (targets : List RawTarget) : Except Err ManagerState :=
  match targets with
  | [] => .error noTargetsMsg
  | t0 :: _ =>
    let normalized := targets.map
      (fun t => TargetDef.mk t.name (t.options.getD {}) (t.useProcessEnv.getD false))
    .ok { targets := normalized, clients := [], clientStates := [], nextId := 0,
          defaultTargetName := t0.name }

/-- Cache read `this.clients.get(name)`. -/
def cachedClientId (m : ManagerState) (name : String) : Option Nat :=
  (m.clients.find? (fun p => p.1 == name)).map (·.2)

/-- Heap read: the state of the client with identity `id`. -/
def clientStateOf (m : ManagerState) (id : Nat) : Option McpClientState :=
  (m.clientStates.find? (fun p => p.1 == id)).map (·.2)

/-- Source method `getClient(targetName)` (lines 546-557): resolve
`targetName ?? this.defaultTargetName`, find the target (first match),
throw on an unknown name, construct-and-cache on a cache miss
(`new McpChatClient({...target.options, useProcessEnv: target.useProcessEnv})`),
and return the cached client.  The returned `Nat` is the client's
identity. -/
def getClient (m : ManagerState) (penv : Env) (targetName : Option String) :
    Except Err (Nat × ManagerState) :=
  let name := targetName.getD m.defaultTargetName
  match m.targets.find? (fun t => t.name == name) with
  | none => .error (unknownTargetMsg name)
  | some target =>
    match cachedClientId m name with
    | some id => .ok (id, m)
    | none =>
      let id := m.nextId
      let clientState := mkClientState target.options target.useProcessEnv penv
      .ok (id, { m with clients := (name, id) :: m.clients,
                        clientStates := (id, clientState) :: m.clientStates,
                        nextId := id + 1 })

/-- The snapshot returned by `getTargetSummary`. -/
structure TargetSummary where
  name : String
  productFilter : Option String
  connected : Bool
  connectionLabel : String
  deriving DecidableEq, Repr

/-- Source method `getTargetSummary(name)` (lines 568-580): find the target
(`null` if unknown), read the cached client if any, and build the
snapshot.  `client?.getProductFilter() ?? target.options.product ?? null`
collapses both "no client" and "client with null filter" into the
fallback chain, since JS `??` treats `undefined` and `null` alike.  The
method mutates nothing, so the manager state is returned unchanged. -/
def getTargetSummary (m : ManagerState) (name : String) :
    Option TargetSummary × ManagerState :=
  match m.targets.find? (fun t => t.name == name) with
  | none => (none, m)
  | some target =>
    let client := (cachedClientId m name).bind (clientStateOf m)
    (some { name := name
            productFilter := (client.bind getProductFilter) <|> target.options.product
            connected := (client.map isConnected).getD false
            connectionLabel := (client.map getConnectionLabel).getD "" }, m)

/-! ## Helper lemmas -/

theorem getArg_insertArg_self (args : Args) (k : String) (v : JsVal) :
    getArg (insertArg args k v) k = some v := by
  induction args with
  | nil => simp [getArg, insertArg]
  | cons p ps ih =>
    by_cases h : p.1 = k
    · simp [getArg, insertArg, h]
    · simpa [getArg, insertArg, h] using ih

theorem getArg_insertArg_ne (args : Args) (k : String) (v : JsVal) (k2 : String)
    (h : k2 ≠ k) : getArg (insertArg args k v) k2 = getArg args k2 := by
  induction args with
  | nil => simp [getArg, insertArg, Ne.symm h]
  | cons p ps ih =>
    by_cases hp : p.1 = k
    · have hp2 : ¬ p.1 = k2 := by rw [hp]; exact Ne.symm h
      simp [getArg, insertArg, hp, hp2, Ne.symm h]
    · by_cases hq : p.1 = k2
      · simp [getArg, insertArg, hp, hq, h]
      · simpa [getArg, insertArg, hp, hq] using ih

theorem getArg_eq_none_of_not_key (args : Args) (k : String)
    (h : ∀ p ∈ args, p.1 ≠ k) : getArg args k = none := by
  induction args with
  | nil => rfl
  | cons p ps ih =>
    have hp := h p (by simp)
    simpa [getArg, hp] using ih (fun q hq => h q (by simp [hq]))

theorem getArg_mergeArgs (a b : Args) (k : String)
    (hb : (b.map Prod.fst).Nodup) :
    getArg (mergeArgs a b) k = (getArg b k).orElse (fun _ => getArg a k) := by
  induction b generalizing a with
  | nil => cases hx : getArg a k <;> simp [mergeArgs, getArg, Option.orElse, hx]
  | cons p ps ih =>
    have hnotin : p.1 ∉ ps.map Prod.fst := (List.nodup_cons.mp hb).1
    have hnd : (ps.map Prod.fst).Nodup := (List.nodup_cons.mp hb).2
    have hfold : mergeArgs a (p :: ps) = mergeArgs (insertArg a p.1 p.2) ps := rfl
    rw [hfold, ih (insertArg a p.1 p.2) hnd]
    by_cases hk : k = p.1
    · subst hk
      have hnone : getArg ps p.1 = none := by
        refine getArg_eq_none_of_not_key ps p.1 (fun q hq hqe => hnotin ?_)
        exact hqe ▸ List.mem_map_of_mem Prod.fst hq
      simp [hnone, getArg, Option.orElse, getArg_insertArg_self]
    · have hne : ¬ p.1 = k := Ne.symm hk
      rw [getArg_insertArg_ne a p.1 p.2 k hk]
      simp [getArg, hne]

theorem lookupProp_isSome_eq_contains (props : List (String × SchemaProp)) (k : String) :
    (lookupProp props k).isSome = (props.map Prod.fst).contains k := by
  induction props with
  | nil => rfl
  | cons p ps ih =>
    by_cases h : p.1 = k
    · simp [lookupProp, h]
    · have hk : (k == p.1) = false := by simp [Ne.symm h]
      simpa [lookupProp, h, hk] using ih

/-- Closed form of the attempt list: one forced attempt for each
recognized preference, both attempts (streamable-HTTP first) otherwise. -/
theorem buildTransportAttempts_eq (p u v : String) :
    buildTransportAttempts p u v =
      if p = "sse" then [⟨"sse @ " ++ u, ⟨.sse, u⟩⟩]
      else if p = "streamable" then [⟨"streamable-http @ " ++ v, ⟨.streamableHttp, v⟩⟩]
      else [⟨"streamable-http @ " ++ v, ⟨.streamableHttp, v⟩⟩, ⟨"sse @ " ++ u, ⟨.sse, u⟩⟩] := by
  by_cases hs : p = "sse"
  · subst hs; rfl
  · by_cases ht : p = "streamable"
    · subst ht; rfl
    · have hc : (["sse", "streamable"].contains p) = false := by
        simp [List.contains_cons, hs, ht]
      simp [buildTransportAttempts, hc, hs, ht]

theorem buildTransportAttempts_ne_nil (p u v : String) :
    buildTransportAttempts p u v ≠ [] := by
  rw [buildTransportAttempts_eq]
  by_cases hs : p = "sse" <;> by_cases ht : p = "streamable" <;> simp [hs, ht]

/-! ## Claim theorems -/

/-- C5: primary-argument inference is a deterministic function of the
tool's input schema, identical for every target: on an object schema,
`pickPrimaryArgument` agrees with the spec's rule (prefer a property named
`query`; else `question`; else the unique property; else the unique
string-typed property; else no inference), the connect-time assignment
keeps the prior default key exactly when no inference is made, and an
absent schema also keeps the prior default. -/
theorem c5_primary_argument_inference (sch : InputSchema) (prior : String)
    (h : sch.type = "object") :
    pickPrimaryArgument (some sch) = specInferPrimary (sch.properties.getD []) ∧
    inferredPrimaryKey (some sch) prior =
      (specInferPrimary (sch.properties.getD [])).getD prior ∧
    (specInferPrimary (sch.properties.getD []) = none →
      inferredPrimaryKey (some sch) prior = prior) ∧
    inferredPrimaryKey none prior = prior := by
  have hmain : pickPrimaryArgument (some sch) = specInferPrimary (sch.properties.getD []) := by
    rw [show pickPrimaryArgument (some sch) =
          (if sch.type ≠ "object" then none
           else if (lookupProp (sch.properties.getD []) "query").isSome then some "query"
           else if (lookupProp (sch.properties.getD []) "question").isSome then some "question"
           else if ((sch.properties.getD []).map (·.1)).length = 1 then
             ((sch.properties.getD []).map (·.1)).head?
           else if (((sch.properties.getD []).map (·.1)).filter
               (fun key => ((lookupProp (sch.properties.getD []) key).bind SchemaProp.type)
                 == some "string")).length = 1 then
             (((sch.properties.getD []).map (·.1)).filter
               (fun key => ((lookupProp (sch.properties.getD []) key).bind SchemaProp.type)
                 == some "string")).head?
           else none) from rfl,
        lookupProp_isSome_eq_contains (sch.properties.getD []) "query",
        lookupProp_isSome_eq_contains (sch.properties.getD []) "question"]
    simp [specInferPrimary, h]
  refine ⟨hmain, by rw [inferredPrimaryKey, hmain], fun hn => ?_, rfl⟩
  rw [inferredPrimaryKey, hmain, hn]; rfl

/-- Witness for C5 at the spec's `{a: string, b: number}` example schema. -/
theorem c5_witness :
    (InputSchema.type ⟨"object", some [("a", ⟨some "string"⟩), ("b", ⟨some "number"⟩)]⟩
      = "object") ∧
    pickPrimaryArgument (some ⟨"object", some [("a", ⟨some "string"⟩), ("b", ⟨some "number"⟩)]⟩)
      = specInferPrimary [("a", ⟨some "string"⟩), ("b", ⟨some "number"⟩)] :=
  ⟨rfl,
   (c5_primary_argument_inference
     ⟨"object", some [("a", ⟨some "string"⟩), ("b", ⟨some "number"⟩)]⟩ "query" rfl).1⟩

/-- C7: `buildTransportAttempts` returns exactly one attempt, labelled and
bound to the forced transport, for each recognized forced preference
(`sse`, `streamable`); for any other preference it returns exactly the
two attempts with the streamable-HTTP endpoint-A attempt first and the
SSE endpoint-B attempt second; and the attempt list is never empty. -/
theorem c7_buildTransportAttempts (sseUrl streamableUrl pref : String)
    (hp1 : pref ≠ "sse") (hp2 : pref ≠ "streamable") :
    buildTransportAttempts "sse" sseUrl streamableUrl =
      [⟨"sse @ " ++ sseUrl, ⟨.sse, sseUrl⟩⟩] ∧
    buildTransportAttempts "streamable" sseUrl streamableUrl =
      [⟨"streamable-http @ " ++ streamableUrl, ⟨.streamableHttp, streamableUrl⟩⟩] ∧
    buildTransportAttempts pref sseUrl streamableUrl =
      [⟨"streamable-http @ " ++ streamableUrl, ⟨.streamableHttp, streamableUrl⟩⟩,
       ⟨"sse @ " ++ sseUrl, ⟨.sse, sseUrl⟩⟩] ∧
    (∀ p, buildTransportAttempts p sseUrl streamableUrl ≠ []) := by
  refine ⟨?_, ?_, ?_, fun p => buildTransportAttempts_ne_nil p sseUrl streamableUrl⟩ <;>
    simp [buildTransportAttempts_eq, hp1, hp2]

/-- Witness for C7 with the `auto` preference. -/
theorem c7_witness :
    (("auto" : String) ≠ "sse") ∧
    buildTransportAttempts "auto" "s" "m" =
      [⟨"streamable-http @ " ++ "m", ⟨.streamableHttp, "m"⟩⟩,
       ⟨"sse @ " ++ "s", ⟨.sse, "s"⟩⟩] :=
  ⟨by decide, (c7_buildTransportAttempts "s" "m" "auto" (by decide) (by decide)).2.2.1⟩

/-- If the first attempt's factory and connect call both succeed, the
fallback loop returns that attempt's transport and label at once, with no
warning and no teardown. -/
theorem runFallback_head_success (a : Attempt) (rest : List (Attempt × AttemptBehavior))
    (last : Option Err) :
    runFallback ((a, ⟨none, none⟩) :: rest) last = (.ok a.create a.label, ⟨[], []⟩) :=
  rfl

/-- C4 (amended): when no factory throws, every attempt whose `connect`
call fails before the first succeeding attempt is logged as a warning and
torn down (client and transport `close` invoked, errors swallowed), the
sequence continues, and the result carries the succeeding attempt's
transport and label. -/
theorem c4_fallback_connect_failures (pre : List (Attempt × AttemptBehavior))
    (a : Attempt) (b : AttemptBehavior) (rest : List (Attempt × AttemptBehavior))
    (last : Option Err)
    (hpre : ∀ p ∈ pre, p.2.createErr = none ∧ p.2.connectErr.isSome)
    (hb1 : b.createErr = none) (hb2 : b.connectErr = none) :
    runFallback (pre ++ (a, b) :: rest) last =
      (.ok a.create a.label,
       ⟨pre.map (fun p => warnMsg p.1.label (p.2.connectErr.getD "")),
        pre.map (fun p => p.1.label)⟩) := by
  induction pre generalizing last with
  | nil => simp [runFallback, hb1, hb2]
  | cons p ps ih =>
    obtain ⟨pa, pb⟩ := p
    obtain ⟨h1, h2⟩ := hpre (pa, pb) (by simp)
    obtain ⟨e, he⟩ := Option.isSome_iff_exists.mp h2
    have hrec := ih (some e) (fun q hq => hpre q (by simp [hq]))
    have h1b : pb.createErr = none := h1
    have heb : pb.connectErr = some e := he
    simp [runFallback, h1b, heb, hrec]

/-- Counterexample to C4: a failure of the first attempt's factory
(`attempt.create()` is invoked *outside* the `try` in
`connectWithFallback`) aborts the whole fallback sequence with the factory
error — no warning is logged, no teardown happens, and the second attempt
is never tried even though it would have succeeded. -/
theorem c4_counterexample :
    runFallback
      [(⟨"streamable-http @ m", ⟨.streamableHttp, "m"⟩⟩, ⟨some "Invalid URL", none⟩),
       (⟨"sse @ s", ⟨.sse, "s"⟩⟩, ⟨none, none⟩)] none =
      (.err "Invalid URL", ⟨[], []⟩) ∧
    runFallback [(⟨"sse @ s", ⟨.sse, "s"⟩⟩, ⟨none, none⟩)] none =
      (.ok ⟨.sse, "s"⟩ "sse @ s", ⟨[], []⟩) := by
  exact ⟨rfl, rfl⟩

/-- Witness for C4 (amended): one connect-level failure before a
succeeding second attempt yields that attempt's label, one warning and
one teardown. -/
theorem c4_witness :
    ((⟨none, some "boom"⟩ : AttemptBehavior).createErr = none) ∧
    runFallback
      [(⟨"streamable-http @ m", ⟨.streamableHttp, "m"⟩⟩, ⟨none, some "boom"⟩),
       (⟨"sse @ s", ⟨.sse, "s"⟩⟩, ⟨none, none⟩)] none =
      (.ok ⟨.sse, "s"⟩ "sse @ s",
       ⟨[warnMsg "streamable-http @ m" "boom"], ["streamable-http @ m"]⟩) :=
  ⟨rfl, by
    have h := c4_fallback_connect_failures
      [(⟨"streamable-http @ m", ⟨.streamableHttp, "m"⟩⟩, ⟨none, some "boom"⟩)]
      ⟨"sse @ s", ⟨.sse, "s"⟩⟩ ⟨none, none⟩ [] none
      (by intro p hp; simp at hp; subst hp; exact ⟨rfl, rfl⟩) rfl rfl
    simpa using h⟩

/-- C3: when every transport attempt's connect call fails (and no factory
throws), `#connectInternal` fails with the last underlying error — the
error of the final attempt in the fallback order — carried verbatim, and
the client state is unchanged: still disconnected (`isConnected` false),
so a future retry is possible. -/
theorem c3_all_transports_fail (s : McpClientState) (es : Nat → Err) (tools : List Tool)
    (hkey : jsTruthyStr s.apiKey = true) (hclient : s.client = none) :
    (connectInternal s (fun i => ⟨none, some (es i)⟩) tools).1 =
      some (es ((buildTransportAttempts s.transportPreference s.sseUrl
        s.streamableUrl).length - 1)) ∧
    (connectInternal s (fun i => ⟨none, some (es i)⟩) tools).2.1 = s ∧
    isConnected (connectInternal s (fun i => ⟨none, some (es i)⟩) tools).2.1 = false := by
  have hshape := buildTransportAttempts_eq s.transportPreference s.sseUrl s.streamableUrl
  by_cases hs : s.transportPreference = "sse"
  · rw [if_pos hs] at hshape
    refine ⟨?_, ?_, ?_⟩ <;>
      simp [connectInternal, hkey, hshape, List.enum, List.enumFrom,
        connectWithFallback, runFallback, isConnected, hclient]
  · by_cases ht : s.transportPreference = "streamable"
    · rw [if_neg hs, if_pos ht] at hshape
      refine ⟨?_, ?_, ?_⟩ <;>
        simp [connectInternal, hkey, hshape, List.enum, List.enumFrom,
          connectWithFallback, runFallback, isConnected, hclient]
    · rw [if_neg hs, if_neg ht] at hshape
      refine ⟨?_, ?_, ?_⟩ <;>
        simp [connectInternal, hkey, hshape, List.enum, List.enumFrom,
          connectWithFallback, runFallback, isConnected, hclient]

/-- Witness for C3: both `auto` attempts fail; the rejection carries the
second (SSE) attempt's error, and the state is unchanged. -/
theorem c3_witness :
    (jsTruthyStr (mkClientState
      { apiKey := some "k", sseUrl := some "s", streamableUrl := some "m",
        transportPreference := some "auto", toolName := some "t" } false emptyEnv).apiKey
      = true) ∧
    (connectInternal
      (mkClientState
        { apiKey := some "k", sseUrl := some "s", streamableUrl := some "m",
          transportPreference := some "auto", toolName := some "t" } false emptyEnv)
      (fun i => ⟨none, some (if i = 0 then "e0" else "e1")⟩) []).1 = some "e1" :=
  ⟨rfl, by
    have h := (c3_all_transports_fail
      (mkClientState
        { apiKey := some "k", sseUrl := some "s", streamableUrl := some "m",
          transportPreference := some "auto", toolName := some "t" } false emptyEnv)
      (fun i => if i = 0 then "e0" else "e1") [] rfl rfl).1
    simpa using h⟩

/-- C1 (code bug evaluation): when the transport connects but the
configured tool is absent from the advertised list, `#connectInternal`
does throw the tool-not-found error, but the successfully-connected
client and transport handles REMAIN stored: `isConnected()` is `true`
while no tool is selected, and a later `connect()` returns immediately
with no error and no fresh attempt sequence (here: even against a world
in which every fresh attempt would fail).  This contradicts the spec's
"leaves state `Disconnected`, handles not retained, retry starts fresh". -/
theorem c1_tool_absent_retains_connection :
    (connectInternal
      (mkClientState
        { apiKey := some "k", sseUrl := some "s", streamableUrl := some "m",
          transportPreference := some "auto", toolName := some "t" } false emptyEnv)
      (fun _ => ⟨none, none⟩) []).1 = some (toolNotFoundMsg "t") ∧
    (connectInternal
      (mkClientState
        { apiKey := some "k", sseUrl := some "s", streamableUrl := some "m",
          transportPreference := some "auto", toolName := some "t" } false emptyEnv)
      (fun _ => ⟨none, none⟩) []).2.1.client = some () ∧
    (connectInternal
      (mkClientState
        { apiKey := some "k", sseUrl := some "s", streamableUrl := some "m",
          transportPreference := some "auto", toolName := some "t" } false emptyEnv)
      (fun _ => ⟨none, none⟩) []).2.1.transport = some ⟨.streamableHttp, "m"⟩ ∧
    isConnected (connectInternal
      (mkClientState
        { apiKey := some "k", sseUrl := some "s", streamableUrl := some "m",
          transportPreference := some "auto", toolName := some "t" } false emptyEnv)
      (fun _ => ⟨none, none⟩) []).2.1 = true ∧
    (connectInternal
      (mkClientState
        { apiKey := some "k", sseUrl := some "s", streamableUrl := some "m",
          transportPreference := some "auto", toolName := some "t" } false emptyEnv)
      (fun _ => ⟨none, none⟩) []).2.1.selectedTool = none ∧
    connectOnce
      (connectInternal
        (mkClientState
          { apiKey := some "k", sseUrl := some "s", streamableUrl := some "m",
            transportPreference := some "auto", toolName := some "t" } false emptyEnv)
        (fun _ => ⟨none, none⟩) []).2.1
      (fun _ => ⟨none, some "server down"⟩) [] =
      (none,
       (connectInternal
         (mkClientState
           { apiKey := some "k", sseUrl := some "s", streamableUrl := some "m",
             transportPreference := some "auto", toolName := some "t" } false emptyEnv)
         (fun _ => ⟨none, none⟩) []).2.1, ⟨[], []⟩) := by
  refine ⟨rfl, rfl, rfl, rfl, rfl, rfl⟩

/-- Counterexample to C6: with the product filter set to `"ACI"` and a
caller override supplying an argument literally named `product` with the
empty-string value, an argument named `product` IS present in the merged
arguments, yet `ask` assigns the filter over it — the guard is JS
truthiness of `args.product`, not presence of the name. -/
theorem c6_counterexample :
    hasArg (mergeArgs
      (setProductFilter (mkClientState {} false emptyEnv) (some "ACI")).staticArgs
      [("product", .str "")]) "product" = true ∧
    getArg (buildAskArgs (setProductFilter (mkClientState {} false emptyEnv) (some "ACI"))
      [("product", .str "")] "x") "product" = some (.str "ACI") :=
  ⟨rfl, rfl⟩

/-- C6 (amended): for a question that is non-empty after trimming, `ask`
builds the arguments by merging, in increasing precedence, the static
configured arguments, the caller overrides, and the trimmed question at
the inferred primary key; the configured product filter is then assigned
to `product` only when the merged arguments' `product` value is absent or
JS-falsy (an argument named `product` present with a falsy value such as
`""` is overwritten); a cleared (unset) filter adds no `product` argument
at all. -/
theorem c6_ask_argument_merge (s : McpClientState) (ov : Args) (q : String)
    (hnodup : (ov.map Prod.fst).Nodup) (ht : jsTrim q ≠ "") :
    askArgs s q ov = .ok (buildAskArgs s ov (jsTrim q)) ∧
    getArg (buildAskArgs s ov (jsTrim q)) s.primaryArgKey = some (.str (jsTrim q)) ∧
    (∀ k, k ≠ s.primaryArgKey → k ≠ "product" →
      getArg (buildAskArgs s ov (jsTrim q)) k =
        (getArg ov k).orElse (fun _ => getArg s.staticArgs k)) ∧
    (s.productFilter = none →
      buildAskArgs s ov (jsTrim q) =
        insertArg (mergeArgs s.staticArgs ov) s.primaryArgKey (.str (jsTrim q))) ∧
    (∀ f, s.productFilter = some f → f ≠ "" →
      jsTruthyOpt (getArg (insertArg (mergeArgs s.staticArgs ov) s.primaryArgKey
        (.str (jsTrim q))) "product") = true →
      buildAskArgs s ov (jsTrim q) =
        insertArg (mergeArgs s.staticArgs ov) s.primaryArgKey (.str (jsTrim q))) ∧
    (∀ f, s.productFilter = some f → f ≠ "" →
      jsTruthyOpt (getArg (insertArg (mergeArgs s.staticArgs ov) s.primaryArgKey
        (.str (jsTrim q))) "product") = false →
      buildAskArgs s ov (jsTrim q) =
        insertArg (insertArg (mergeArgs s.staticArgs ov) s.primaryArgKey (.str (jsTrim q)))
          "product" (.str f)) := by
  have hbeq : ∀ t, buildAskArgs s ov t =
      match s.productFilter with
      | some f =>
        if f ≠ "" ∧ jsTruthyOpt (getArg (insertArg (mergeArgs s.staticArgs ov)
            s.primaryArgKey (.str t)) "product") = false then
          insertArg (insertArg (mergeArgs s.staticArgs ov) s.primaryArgKey (.str t))
            "product" (.str f)
        else insertArg (mergeArgs s.staticArgs ov) s.primaryArgKey (.str t)
      | none => insertArg (mergeArgs s.staticArgs ov) s.primaryArgKey (.str t) :=
    fun _ => rfl
  refine ⟨by simp [askArgs, ht], ?_, ?_, ?_, ?_, ?_⟩
  · -- the trimmed question lands at the primary key
    cases hpf : s.productFilter with
    | none =>
      simp only [hbeq, hpf]
      exact getArg_insertArg_self _ _ _
    | some f =>
      simp only [hbeq, hpf]
      by_cases hk : s.primaryArgKey = "product"
      · have htr : jsTruthyOpt (getArg (insertArg (mergeArgs s.staticArgs ov)
            s.primaryArgKey (.str (jsTrim q))) "product") = true := by
          rw [← hk, getArg_insertArg_self]
          simpa [jsTruthyOpt, jsTruthy] using ht
        rw [if_neg (by simp [htr])]
        exact getArg_insertArg_self _ _ _
      · by_cases hcond : f ≠ "" ∧ jsTruthyOpt (getArg (insertArg (mergeArgs s.staticArgs ov)
            s.primaryArgKey (.str (jsTrim q))) "product") = false
        · rw [if_pos hcond, getArg_insertArg_ne _ _ _ _ hk]
          exact getArg_insertArg_self _ _ _
        · rw [if_neg hcond]
          exact getArg_insertArg_self _ _ _
  · -- precedence for untouched keys: overrides beat static arguments
    intro k hk1 hk2
    have hbase : getArg (insertArg (mergeArgs s.staticArgs ov) s.primaryArgKey
        (.str (jsTrim q))) k = (getArg ov k).orElse (fun _ => getArg s.staticArgs k) := by
      rw [getArg_insertArg_ne _ _ _ _ hk1, getArg_mergeArgs _ _ _ hnodup]
    cases hpf : s.productFilter with
    | none =>
      simp only [hbeq, hpf]
      exact hbase
    | some f =>
      simp only [hbeq, hpf]
      by_cases hcond : f ≠ "" ∧ jsTruthyOpt (getArg (insertArg (mergeArgs s.staticArgs ov)
          s.primaryArgKey (.str (jsTrim q))) "product") = false
      · rw [if_pos hcond, getArg_insertArg_ne _ _ _ _ hk2]
        exact hbase
      · rw [if_neg hcond]
        exact hbase
  · intro hpf
    simp only [hbeq, hpf]
  · intro f hpf hf htr
    simp only [hbeq, hpf]
    rw [if_neg (by simp [htr])]
  · intro f hpf hf htr
    simp only [hbeq, hpf]
    rw [if_pos ⟨hf, htr⟩]

/-- Witness for C6 (amended) at a concrete state and override list. -/
theorem c6_witness :
    ((([("a", JsVal.str "1")] : Args).map Prod.fst).Nodup ∧ jsTrim " x " ≠ "") ∧
    askArgs (mkClientState {} false emptyEnv) " x " [("a", JsVal.str "1")] =
      .ok (buildAskArgs (mkClientState {} false emptyEnv) [("a", JsVal.str "1")]
        (jsTrim " x ")) :=
  ⟨⟨by decide, by decide⟩,
   (c6_ask_argument_merge (mkClientState {} false emptyEnv) [("a", JsVal.str "1")] " x "
     (by decide) (by decide)).1⟩

/-- C8: `getClient` resolves an omitted name to the current default
target, fails with the unknown-target error when the name matches no
registered target, and memoizes by name: once a call returns a client for
a name, every later call for that name returns the same cached client with
the manager unchanged — regardless of duplicate target listings, and
independent of anything that later happens to the client's own state. -/
theorem c8_getClient_memoizes (m : ManagerState) (penv : Env) (n : String) :
    getClient m penv none = getClient m penv (some m.defaultTargetName) ∧
    ((∀ t ∈ m.targets, t.name ≠ n) →
      getClient m penv (some n) = .error (unknownTargetMsg n)) ∧
    (∀ id m2, getClient m penv (some n) = .ok (id, m2) →
      getClient m2 penv (some n) = .ok (id, m2)) := by
  refine ⟨rfl, fun hall => ?_, fun id m2 hok => ?_⟩
  · have hf : m.targets.find? (fun t => t.name == n) = none :=
      List.find?_eq_none.mpr (fun t htm => by simp [hall t htm])
    simp [getClient, hf]
  · simp only [getClient, Option.getD_some] at hok ⊢
    cases hfind : m.targets.find? (fun t => t.name == n) with
    | none => rw [hfind] at hok; exact absurd hok (by simp)
    | some target =>
      rw [hfind] at hok
      cases hcache : cachedClientId m n with
      | some cid =>
        rw [hcache] at hok
        simp only [Except.ok.injEq, Prod.mk.injEq] at hok
        obtain ⟨h1, h2⟩ := hok
        subst h1; subst h2
        rw [hfind, hcache]
      | none =>
        rw [hcache] at hok
        simp only [Except.ok.injEq, Prod.mk.injEq] at hok
        obtain ⟨h1, h2⟩ := hok
        subst h1
        subst h2
        have hfind2 : m.targets.find? (fun t => t.name == n) = some target := hfind
        rw [show ({ m with
            clients := (n, m.nextId) :: m.clients,
            clientStates := (m.nextId, mkClientState target.options target.useProcessEnv penv)
              :: m.clientStates,
            nextId := m.nextId + 1 } : ManagerState).targets = m.targets from rfl, hfind2]
        have hcache2 : cachedClientId { m with
            clients := (n, m.nextId) :: m.clients,
            clientStates := (m.nextId, mkClientState target.options target.useProcessEnv penv)
              :: m.clientStates,
            nextId := m.nextId + 1 } n = some m.nextId := by
          simp [cachedClientId]
        rw [hcache2]

/-- Witness for C8: a registry listing the same name twice returns the one
cached client on the repeated call. -/
theorem c8_witness :
    getClient
      { targets := [⟨"A", {}, false⟩, ⟨"A", {}, false⟩], clients := [],
        clientStates := [], nextId := 0, defaultTargetName := "A" } emptyEnv (some "A") =
      .ok (0,
        { targets := [⟨"A", {}, false⟩, ⟨"A", {}, false⟩], clients := [("A", 0)],
          clientStates := [(0, mkClientState {} false emptyEnv)], nextId := 1,
          defaultTargetName := "A" }) ∧
    getClient
      { targets := [⟨"A", {}, false⟩, ⟨"A", {}, false⟩], clients := [("A", 0)],
        clientStates := [(0, mkClientState {} false emptyEnv)], nextId := 1,
        defaultTargetName := "A" } emptyEnv (some "A") =
      .ok (0,
        { targets := [⟨"A", {}, false⟩, ⟨"A", {}, false⟩], clients := [("A", 0)],
          clientStates := [(0, mkClientState {} false emptyEnv)], nextId := 1,
          defaultTargetName := "A" }) :=
  ⟨rfl,
   (c8_getClient_memoizes
     { targets := [⟨"A", {}, false⟩, ⟨"A", {}, false⟩], clients := [],
       clientStates := [], nextId := 0, defaultTargetName := "A" } emptyEnv "A").2.2
     0
     { targets := [⟨"A", {}, false⟩, ⟨"A", {}, false⟩], clients := [("A", 0)],
       clientStates := [(0, mkClientState {} false emptyEnv)], nextId := 1,
       defaultTargetName := "A" }
     rfl⟩

/-- Counterexample to C9: for a registered target configured with
`options.product = "ACI"` whose client was never instantiated, the summary
reports that configured product — not a null product filter as the claim
states. -/
theorem c9_counterexample :
    (getTargetSummary
      { targets := [⟨"A", { product := some "ACI" }, false⟩], clients := [],
        clientStates := [], nextId := 0, defaultTargetName := "A" } "A").1 =
      some ⟨"A", some "ACI", false, ""⟩ ∧
    some "ACI" ≠ (none : Option String) :=
  ⟨rfl, by decide⟩

/-- C9 (amended): `getTargetSummary` never mutates the manager (the state
component of its result is the input state, for every manager and name,
so neither the client cache nor any client state changes), and for a
registered target whose client was never instantiated it reports
`connected = false`, an empty connection label, and as product filter the
target's configured `options.product` — which is null exactly when no
product is configured. -/
theorem c9_target_summary (m : ManagerState) (name : String) (target : TargetDef)
    (hfind : m.targets.find? (fun t => t.name == name) = some target)
    (hnc : cachedClientId m name = none) :
    (∀ (m2 : ManagerState) (n2 : String), (getTargetSummary m2 n2).2 = m2) ∧
    getTargetSummary m name = (some ⟨name, target.options.product, false, ""⟩, m) := by
  constructor
  · intro m2 n2
    unfold getTargetSummary
    cases m2.targets.find? (fun t => t.name == n2) <;> rfl
  · simp [getTargetSummary, hfind, hnc, getProductFilter]

/-- Witness for C9 (amended): a never-instantiated target with no
configured product reports nulls and false. -/
theorem c9_witness :
    getTargetSummary
      { targets := [⟨"B", {}, false⟩], clients := [], clientStates := [],
        nextId := 0, defaultTargetName := "B" } "B" =
      (some ⟨"B", none, false, ""⟩,
       { targets := [⟨"B", {}, false⟩], clients := [], clientStates := [],
         nextId := 0, defaultTargetName := "B" }) :=
  (c9_target_summary
    { targets := [⟨"B", {}, false⟩], clients := [], clientStates := [],
      nextId := 0, defaultTargetName := "B" } "B" ⟨"B", {}, false⟩ rfl rfl).2

/-- C10: `close()` resets the client handle, transport handle, selected
tool and connection label to their disconnected defaults but does NOT
reset the inferred primary-argument key (nor the product filter); a
subsequent successful `connect()` whose tool schema admits no inference
falls back to the preserved key — the key inferred before the close — and
not to `"query"`. -/
theorem c10_close_preserves_primary_key (s : McpClientState)
    (tools : List Tool) (tool : Tool)
    (hkey : jsTruthyStr s.apiKey = true)
    (hfind : tools.find? (fun t => t.name == s.toolName) = some tool)
    (hpick : pickPrimaryArgument tool.inputSchema = none) :
    (closeClient s).client = none ∧
    (closeClient s).transport = none ∧
    (closeClient s).selectedTool = none ∧
    (closeClient s).connectionLabel = "" ∧
    (closeClient s).primaryArgKey = s.primaryArgKey ∧
    (closeClient s).productFilter = s.productFilter ∧
    (connectOnce (closeClient s) (fun _ => ⟨none, none⟩) tools).1 = none ∧
    (connectOnce (closeClient s) (fun _ => ⟨none, none⟩) tools).2.1.primaryArgKey =
      s.primaryArgKey := by
  have hshape := buildTransportAttempts_eq s.transportPreference s.sseUrl s.streamableUrl
  refine ⟨rfl, rfl, rfl, rfl, rfl, rfl, ?_, ?_⟩ <;>
  · by_cases hs : s.transportPreference = "sse"
    · rw [if_pos hs] at hshape
      simp [connectOnce, connectInternal, closeClient, hkey, hshape, List.enum,
        List.enumFrom, connectWithFallback, runFallback, hfind, inferredPrimaryKey, hpick]
    · by_cases htr : s.transportPreference = "streamable"
      · rw [if_neg hs, if_pos htr] at hshape
        simp [connectOnce, connectInternal, closeClient, hkey, hshape, List.enum,
          List.enumFrom, connectWithFallback, runFallback, hfind, inferredPrimaryKey, hpick]
      · rw [if_neg hs, if_neg htr] at hshape
        simp [connectOnce, connectInternal, closeClient, hkey, hshape, List.enum,
          List.enumFrom, connectWithFallback, runFallback, hfind, inferredPrimaryKey, hpick]

/-- Witness for C10: a client whose previous connection inferred
`"question"` keeps `"question"` (not `"query"`) through close and a
reconnect against a schema that admits no inference. -/
theorem c10_witness :
    (connectOnce
      (closeClient
        { mkClientState
            { apiKey := some "k", sseUrl := some "s", streamableUrl := some "m",
              transportPreference := some "auto", toolName := some "t" } false emptyEnv
          with primaryArgKey := "question" })
      (fun _ => ⟨none, none⟩)
      [⟨"t", some ⟨"object", some [("a", ⟨some "number"⟩), ("b", ⟨some "number"⟩)]⟩⟩]).2.1.primaryArgKey
      = "question" :=
  (c10_close_preserves_primary_key
    { mkClientState
        { apiKey := some "k", sseUrl := some "s", streamableUrl := some "m",
          transportPreference := some "auto", toolName := some "t" } false emptyEnv
      with primaryArgKey := "question" }
    [⟨"t", some ⟨"object", some [("a", ⟨some "number"⟩), ("b", ⟨some "number"⟩)]⟩⟩]
    ⟨"t", some ⟨"object", some [("a", ⟨some "number"⟩), ("b", ⟨some "number"⟩)]⟩⟩
    rfl rfl rfl).2.2.2.2.2.2.2

end MCP
